import Mathlib

/-!
Verification of the sealevel repository's station-data alignment and
regression pipeline, as implemented in the notebook
`notebooks/analysis/satellite/get-data.ipynb` and its near-duplicate
variant embedded in `data/s3/nasa/series2json`.

The numeric columns of the pandas frames are modelled as rationals (ℚ);
a missing value (NaN) is modelled as `none` of an `Option ℚ` column.
The transcendental functions applied by the notebook (`np.cos`, `np.sin`
and the radians-to-degrees conversion) only ever feed opaque numeric
columns that the verified properties do not constrain, so they are taken
as function parameters `ℚ → ℚ` of the embedded operations.
-/

set_option maxRecDepth 10000

/-- Error taxonomy of the pipeline: the names follow the specification's
error model (the notebook surfaces these conditions as an `assert`
failure, an `IndexError` from `[-1]` on an empty match list, a
`ValueError` from `float`, and a rank-deficiency failure of the fit). -/
inductive Err where
  | consistencyError
  | formatError
  | valueError
  | singularMatrixError
deriving DecidableEq, Repr

/-! ## Fractional-year decoder (`year2date`) -/

/-- `np.mod(year_fraction, 1)`: the fractional part of a rational. -/
def fracPart (q : ℚ) : ℚ := q - (⌊q⌋ : ℤ)

/-- `np.linspace(0, 1, num=12, endpoint=False)`: the 12 equally spaced
month-start boundaries 0, 1/12, ..., 11/12. -/
def startpoints : List ℚ := (List.range 12).map (fun k => (k : ℚ) / 12)

/-- `np.searchsorted(xs, v)` with the default `side='left'` on a sorted
array: the number of elements strictly less than `v`, which is the
leftmost insertion index of `v`. -/
def searchsortedLeft (xs : List ℚ) (v : ℚ) : ℕ :=
  xs.countP (fun x => decide (x < v))

/-- The raw month indices computed by `year2date` before its
all-zero adjustment: `np.searchsorted(startpoints, remainder)`. -/
def year2dateMonthsRaw (ys : List ℚ) : List ℕ :=
  ys.map (fun y => searchsortedLeft startpoints (fracPart y))

/-- The month column produced by `year2date` in `get-data.ipynb`:
after the sorted search, if every month index is 0 the whole column is
set to 1 (`np.ones_like`). -/
def year2dateMonths (ys : List ℚ) : List ℕ :=
  let m := year2dateMonthsRaw ys
  if m.all (fun x => x == 0) then m.map (fun _ => 1) else m

/-- The month column produced by the `year2date` variant embedded in
`data/s3/nasa/series2json` (and in the PCA notebook after
`data/sat/Makefile`): identical to the main variant but with no
special case for an all-zero month column. -/
def year2dateMonthsV2 (ys : List ℚ) : List ℕ :=
  year2dateMonthsRaw ys

/-- `np.floor_divide(year_fraction, 1).astype('int')`. -/
def year2dateYears (ys : List ℚ) : List ℤ :=
  ys.map (fun y => ⌊y⌋)

/-- `year2date` of `get-data.ipynb`: one `(year, month)` pair per input
(the constructed timestamps are the first day of these months). -/
def year2date (ys : List ℚ) : List (ℤ × ℕ) :=
  List.zip (year2dateYears ys) (year2dateMonths ys)

/-- Modelled from the claim's words (not from the source): the month
assignment the claim describes, namely `index + 1` for the last
boundary that is less than or equal to the fractional part, so that an
input exactly on a boundary belongs to that boundary's month. -/
def specMonth (r : ℚ) : ℕ :=
  startpoints.countP (fun b => decide (b ≤ r))

/-- Modelled from the claim's words: the month column the claim
predicts for a list of fractional years. -/
def specMonths (ys : List ℚ) : List ℕ :=
  ys.map (fun y => specMonth (fracPart y))

/-! ## Station selection (`get_stations`) -/

/-- One row of the PSMSL `filelist.txt` station table. -/
structure Station where
  id : ℤ
  lat : ℚ
  lon : ℚ
  name : String
  coastline_code : ℤ
  station_code : ℤ
  quality : String
deriving DecidableEq, Repr

/-- `get_stations` of `get-data.ipynb`: filter the station table on the
coastline code (`where(...).dropna`), but when an explicit list of
names is supplied, select from the full table by case-insensitive name
membership instead (`stations.loc[boolean indices]`). -/
def get_stations (stations : List Station) (coastline_code : ℤ)
    (names : Option (List String)) : List Station :=
  let selected := stations.filter (fun s => decide (s.coastline_code = coastline_code))
  match names with
  | none => selected
  | some ns =>
      let lower_names := ns.map (fun n => n.toLower)
      stations.filter (fun s => lower_names.contains s.name.toLower)

/-! ## Wind frame, left join, imputation and per-station processing
(`make_wind_df` columns, `get_data`, `get_station_data`)

`get_data` is modelled from the point at which the station frame has
been parsed from the archive (the zipfile/CSV retrieval and the
`rlr2nap` height conversion feed the `height` column and are external
I/O).  The float trigonometry (`np.cos`, `np.sin` both applied to
degrees, and the radians-to-degrees conversion `direction / np.pi * 180`)
appears only inside opaque derived columns, so those three real-valued
functions are parameters `rcosd rsind dirDeg : ℚ → ℚ` of the embedding. -/

/-- One row of the wind frame `wind_df` (time-indexed).  `make_wind_df`
creates `u`, `v`, `speed`, `direction`, `u2`, `v2`; the `u2main`/`u2perp`
columns are created later, in place, by `get_data`, so they are optional
here. -/
structure WindRow where
  t : ℤ
  u : ℚ
  v : ℚ
  speed : ℚ
  direction : ℚ
  u2 : ℚ
  v2 : ℚ
  u2main : Option ℚ
  u2perp : Option ℚ
deriving DecidableEq, Repr

/-- One parsed row of a station's tide-gauge series (`df` in `get_data`),
with the decoded timestamp `t` as index and the height possibly missing. -/
structure StationRow where
  t : ℤ
  year : ℚ
  height : Option ℚ
  station : ℤ
deriving DecidableEq, Repr

/-- One row of the merged station-plus-wind frame: the station part plus
the wind columns, each possibly NaN (`none`). -/
structure MRow where
  s : StationRow
  u : Option ℚ
  v : Option ℚ
  speed : Option ℚ
  direction : Option ℚ
  u2 : Option ℚ
  v2 : Option ℚ
  u2main : Option ℚ
  u2perp : Option ℚ
deriving DecidableEq, Repr

/-- A default merged row (used only as the `getD` default in statements). -/
def mrow0 : MRow :=
  ⟨⟨0, 0, none, 0⟩, none, none, none, none, none, none, none, none⟩

/-- The merged rows contributed by one station row: the wind rows with
equal timestamp, or a single all-NaN-wind row when there is none
(`pandas.merge(df, wind_df, how='left', left_index=True, right_index=True)`). -/
def joinOne (s : StationRow) (wind : List WindRow) : List MRow :=
  let ms := wind.filter (fun w => decide (w.t = s.t))
  if ms.isEmpty then
    [⟨s, none, none, none, none, none, none, none, none⟩]
  else
    ms.map (fun w =>
      ⟨s, some w.u, some w.v, some w.speed, some w.direction,
        some w.u2, some w.v2, w.u2main, w.u2perp⟩)

/-- The left join of the station frame onto the wind frame on timestamp. -/
def leftJoin (df : List StationRow) (wind : List WindRow) : List MRow :=
  df.flatMap (fun s => joinOne s wind)

/-- `np.nanmean` of a column: the mean of its non-missing values
(`none`, i.e. NaN, when every value is missing). -/
def nanmean (col : List (Option ℚ)) : Option ℚ :=
  let vs := col.filterMap id
  if vs.isEmpty then none else some (vs.sum / (vs.length : ℚ))

/-- The four `np.where(np.isnan(...), np.nanmean(...), ...)` assignments
of `get_data`: rows with NaN `u` get the column-mean `u2`, rows with NaN
`v` get the column-mean `v2`, and rows with NaN `u` or NaN `v` get the
column-mean `u2main` and `u2perp`; every mean is the nanmean of that
column of the merged frame itself. -/
def impute (rows : List MRow) : List MRow :=
  let mu2 := nanmean (rows.map MRow.u2)
  let mv2 := nanmean (rows.map MRow.v2)
  let mmain := nanmean (rows.map MRow.u2main)
  let mperp := nanmean (rows.map MRow.u2perp)
  rows.map (fun r =>
    { r with
      u2 := if r.u = none then mu2 else r.u2,
      v2 := if r.v = none then mv2 else r.v2,
      u2main := if r.u = none ∨ r.v = none then mmain else r.u2main,
      u2perp := if r.u = none ∨ r.v = none then mperp else r.u2perp })

/-- Python's float `%` (sign of the divisor): `a - b * floor (a / b)`. -/
def qfmod (a b : ℚ) : ℚ := a - b * ((⌊a / b⌋ : ℤ) : ℚ)

/-- `car2nau`: convert a mathematical angle in degrees to a nautical
bearing, `((carthesian * -1) + 90) % 360`. -/
def car2nau (carthesian : ℚ) : ℚ := qfmod (carthesian * (-1) + 90) 360

/-- The in-place column assignment performed by `get_data` on the shared
`wind_df`: `u2main = speed**2 * cos(pi/180 * (dir_nau_deg - alpha))` and
`u2perp = speed**2 * sin(pi/180 * (dir_nau_deg - alpha))`, with
`dir_nau_deg = car2nau(direction / pi * 180)`. -/
def windUpdate (rcosd rsind dirDeg : ℚ → ℚ) (alpha : ℚ) (r : WindRow) : WindRow :=
  let nau := car2nau (dirDeg r.direction)
  { r with
    u2main := some (r.speed ^ 2 * rcosd (nau - alpha)),
    u2perp := some (r.speed ^ 2 * rsind (nau - alpha)) }

/-- A wind row with the station-dependent `u2main`/`u2perp` columns
erased: the part of the wind state that is independent of which
stations have been processed. -/
def stripWind (r : WindRow) : WindRow :=
  { r with u2main := none, u2perp := none }

/-- `get_data` of `get-data.ipynb` from the parsed station frame onward,
for the monthly cadence (the annual branch left-joins the same mutated
wind frame after resampling; the join and imputation are the same
functions).  The wind frame is threaded as explicit state because the
source mutates the shared `wind_df` in place: it returns the station
frame alone when wind is absent, and otherwise recomputes
`wind_df['u2main']`/`wind_df['u2perp']` from this station's dominant
direction `alphas[name.lower()]`, left-joins, and imputes. -/
def get_data (rcosd rsind dirDeg : ℚ → ℚ) (df : List StationRow)
    (stationName : String) (alphas : String → ℚ)
    (wind : Option (List WindRow)) : List MRow × Option (List WindRow) :=
  match wind with
  | none => (df.map (fun s => ⟨s, none, none, none, none, none, none, none, none⟩), none)
  | some w =>
      let alpha := alphas stationName.toLower
      let w2 := w.map (windUpdate rcosd rsind dirDeg alpha)
      (impute (leftJoin df w2), some w2)

/-- The station loop of `get_station_data`: each station's data is
computed in sequence against the single shared wind frame, whose state
is threaded through the calls. -/
def processStations (rcosd rsind dirDeg : ℚ → ℚ) (alphas : String → ℚ) :
    List (String × List StationRow) → Option (List WindRow)
      → List (List MRow) × Option (List WindRow)
  | [], w => ([], w)
  | p :: ps, w =>
      let r := get_data rcosd rsind dirDeg p.2 p.1 alphas w
      let rest := processStations rcosd rsind dirDeg alphas ps r.2
      (r.1 :: rest.1, rest.2)

/-! ## Nearest-gridpoint wind extractor (`make_wind_df` / `find_closest`)

A gridded NetCDF field is modelled by its three 1-D axes and its 3-D
variable array indexed (time, lat, lon); the extractor's derived
`speed`/`direction` columns are real-valued (sqrt/atan2) and are not
constrained by any claim, so the model returns the extracted `u` and
`v` series with the time axis. -/

/-- A gridded field: `lat`, `lon`, `time` axes and the variable array
indexed `[time][lat][lon]`. -/
structure Grid where
  lat : List ℚ
  lon : List ℚ
  time : List ℚ
  var : List (List (List ℚ))
deriving DecidableEq, Repr

/-- `np.argmin`: the first index attaining the minimum of the list
(0 on the empty list, where numpy raises). -/
def argminIdx : List ℚ → ℕ
  | [] => 0
  | [_] => 0
  | x :: y :: ys =>
      if x ≤ (y :: ys).getD (argminIdx (y :: ys)) 0 then 0 else argminIdx (y :: ys) + 1

/-- The squared lat/lon distance from the grid cell `(p.1, p.2)` to the
target coordinate. -/
def sqDist (lat lon : List ℚ) (lat_i lon_i : ℚ) (p : ℕ × ℕ) : ℚ :=
  (lat.getD p.1 0 - lat_i) ^ 2 + (lon.getD p.2 0 - lon_i) ^ 2

/-- `find_closest`: meshgrid the axes, take `np.argmin` of the squared
distance over the row-major flattened cross-product, and unravel the
flat index back into `(lat index, lon index)`. -/
def find_closest (lat lon : List ℚ) (lat_i lon_i : ℚ) : ℕ × ℕ :=
  let nlon := lon.length
  let dists := (List.range (lat.length * nlon)).map
    (fun idx => sqDist lat lon lat_i lon_i (idx / nlon, idx % nlon))
  let idx := argminIdx dists
  (idx / nlon, idx % nlon)

/-- `ds.variables[name][:, i, j]`: the time series of a gridded variable
at one grid cell. -/
def extractAt (g : Grid) (i j : ℕ) : List ℚ :=
  g.var.map (fun frame => (frame.getD i []).getD j 0)

/-- The axis validation of `make_wind_df`:
`(lat == lat_v).all() and (lon == lon_v).all() and (time == time_v).all()`. -/
def axesMatch (a b : Grid) : Prop :=
  a.lat = b.lat ∧ a.lon = b.lon ∧ a.time = b.time

instance (a b : Grid) : Decidable (axesMatch a b) := by
  unfold axesMatch
  infer_instance

/-- `make_wind_df` from the two opened datasets onward: validate that
the axes agree (the notebook's `assert`, surfaced as the spec's
`ConsistencyError`), locate the nearest grid cell to the requested
coordinate, and extract the `u` and `v` series there. -/
def make_wind_df (ds_u ds_v : Grid) (lat_i lon_i : ℚ) :
    Except Err (List ℚ × List ℚ × List ℚ) :=
  if axesMatch ds_u ds_v then
    let ij := find_closest ds_u.lat ds_u.lon lat_i lon_i
    .ok (ds_u.time, extractAt ds_u ij.1 ij.2, extractAt ds_v ij.1 ij.2)
  else
    .error .consistencyError

/-! ## Datum-correction parser (`get_rlr2nap`)

`get_rlr2nap` runs `re.findall('Add (.+) to data .+ onwards', text)`,
takes the last match, splits it on whitespace, takes the last token,
deletes every `'m'`, converts to float, multiplies by 1000 and returns
`lambda x: x - correction`.  The specific regular expression is embedded
below with Python's semantics for this pattern: `.` matches any
character except a newline, each `.+` is greedy (longest first, outer
group before inner), matches are non-overlapping and scanned left to
right, and `findall` returns the first capture group of each match. -/

/-- Characters `.` can match (anything but a newline). -/
def nonNl (c : Char) : Bool := !(c = '\x0a')

/-- Whether the pattern list is a prefix of the character list. -/
def litPre : List Char → List Char → Bool
  | [], _ => true
  | _ :: _, [] => false
  | a :: as, b :: bs => a = b && litPre as bs

/-- Try `f` on `n, n-1, ..., 1` and return the first success: the
backtracking order of a greedy `.+`. -/
def tryFrom {α : Type} (f : ℕ → Option α) : ℕ → Option α
  | 0 => none
  | n + 1 =>
      match f (n + 1) with
      | some r => some r
      | none => tryFrom f n

/-- Match the trailing `.+ onwards` of the pattern at the start of `cs`,
greedily; returns the number of characters consumed. -/
def matchTail (cs : List Char) : Option ℕ :=
  tryFrom (fun b =>
    if (cs.take b).all nonNl && litPre (" onwards".data) (cs.drop b) then
      some (b + 8)
    else none) cs.length

/-- Match `Add (.+) to data .+ onwards` anchored at the start of `cs`,
with the greedy backtracking of Python's engine; returns the capture
group and the total number of characters matched. -/
def matchAt (cs : List Char) : Option (List Char × ℕ) :=
  if litPre ("Add ".data) cs then
    tryFrom (fun a =>
      if ((cs.drop 4).take a).all nonNl
          && litPre (" to data ".data) ((cs.drop 4).drop a) then
        match matchTail ((cs.drop 4).drop (a + 9)) with
        | some m2 => some ((cs.drop 4).take a, 4 + a + 9 + m2)
        | none => none
      else none) (cs.drop 4).length
  else none

/-- The scan loop of `re.findall`: try an anchored match at each
position left to right, and continue after the end of each match. -/
def findallAux : ℕ → List Char → List (List Char)
  | 0, _ => []
  | _, [] => []
  | fuel + 1, c :: rest =>
      match matchAt (c :: rest) with
      | some (g, len) => g :: findallAux fuel ((c :: rest).drop len)
      | none => findallAux fuel rest

/-- `re.findall('Add (.+) to data .+ onwards', s)`: the capture groups
of the non-overlapping matches, in document order. -/
def findallAdd (s : String) : List String :=
  (findallAux s.data.length s.data).map (fun l => ⟨l⟩)

/-- Python's `str.split()` (split on whitespace runs, no empty parts). -/
def splitWsAux : List Char → List Char → List (List Char)
  | [], acc => if acc.isEmpty then [] else [acc.reverse]
  | c :: cs, acc =>
      if c.isWhitespace then
        if acc.isEmpty then splitWsAux cs [] else acc.reverse :: splitWsAux cs []
      else splitWsAux cs (c :: acc)

/-- `s.split()[-1]`: the last whitespace-separated token, if any. -/
def lastToken (s : String) : Option String :=
  ((splitWsAux s.data []).map (fun l => (⟨l⟩ : String))).getLast?

/-- `s.replace('m', '')`: delete every `'m'`. -/
def stripM (s : String) : String :=
  ⟨s.data.filter (fun c => !(c = 'm'))⟩

/-- The decimal forms accepted by the model of Python's `float`:
(negative?, integer part, fraction digits value, fraction length).
Only plain (optionally signed) decimal notation is modelled; the
correction sentences contain nothing else. -/
def parseParts (s : String) : Option (Bool × ℕ × ℕ × ℕ) :=
  let core := fun (l : List Char) =>
    let ip := l.takeWhile (fun c => !(c = '.'))
    let rest := l.drop ip.length
    match rest with
    | [] =>
        if !ip.isEmpty && ip.all Char.isDigit then
          some (ip.foldl (fun (acc : ℕ) (c : Char) => acc * 10 + (c.toNat - 48)) 0, 0, 0)
        else none
    | _ :: fp =>
        if ip.all Char.isDigit && fp.all Char.isDigit && (!ip.isEmpty || !fp.isEmpty) then
          some (ip.foldl (fun (acc : ℕ) (c : Char) => acc * 10 + (c.toNat - 48)) 0,
            fp.foldl (fun (acc : ℕ) (c : Char) => acc * 10 + (c.toNat - 48)) 0, fp.length)
        else none
  match s.data with
  | '-' :: rest => (core rest).map (fun p => (true, p))
  | l => (core l).map (fun p => (false, p))

/-- The rational value of a parsed decimal. -/
def ratOfParts : Bool × ℕ × ℕ × ℕ → ℚ
  | (neg, ip, fpv, fpl) =>
      (if neg then -1 else 1) * ((ip : ℚ) + (fpv : ℚ) / 10 ^ fpl)

/-- `float(s)` on the modelled decimal forms. -/
def parseFloat (s : String) : Option ℚ :=
  (parseParts s).map ratOfParts

/-- `float(group.split()[-1].replace('m', ''))`: the correction value in
meters parsed from one capture group. -/
def parseCorrection (g : String) : Option ℚ :=
  match lastToken g with
  | none => none
  | some t => parseFloat (stripM t)

/-- `get_rlr2nap` from the decoded RLR info text onward: find all
matches of the correction sentence, fail (the spec's `FormatError`, an
`IndexError` in the notebook) when there is none, build the correction
from the LAST match, convert meters to millimeters (`* 1000`), and
return `lambda x: x - correction`. -/
def get_rlr2nap (text : String) : Except Err (ℚ → ℚ) :=
  match (findallAdd text).getLast? with
  | none => .error .formatError
  | some g =>
      match parseCorrection g with
      | none => .error .valueError
      | some v => .ok (fun x => x - v * 1000)

/-! ## Linear model fit (`linear_model`)

`linear_model` builds the design matrix from the columns of the merged
frame exactly as in the source (`np.c_` of trend, nodal cosine/sine,
optional squared wind, optional 11 monthly dummies, then `sm.add_constant`
prepends the constant), and hands it to `sm.OLS(y, X, missing='drop')`.
The OLS solver itself is the `statsmodels` library, which is not part of
this repository's sources. -/

/-- One row of the frame passed to `linear_model`: the columns the model
reads (`year`, `height`, and when wind is enabled `u2`, `v2`). -/
structure LMRow where
  year : ℚ
  height : Option ℚ
  u2 : Option ℚ
  v2 : Option ℚ
deriving DecidableEq, Repr

/-- The monthly indicator `np.logical_and(month >= i, month < i+1)` with
`month = np.mod(year, 1) * 12.0`. -/
def monthDummy (year : ℚ) (i : ℕ) : ℚ :=
  let month := fracPart year * 12
  if (i : ℚ) ≤ month ∧ month < (i : ℚ) + 1 then 1 else 0

/-- One design-matrix row (after `sm.add_constant`), as optional values:
an entry is `none` exactly when the corresponding frame value is NaN.
`rcosd`/`rsind` stand for `np.cos`/`np.sin` of the nodal phase
`2*pi*(year-1970)/18.613`, abstracted as in the wind model. -/
def featureRow (rcos rsin : ℚ → ℚ) (with_wind with_season : Bool)
    (r : LMRow) : List (Option ℚ) :=
  [some 1, some (r.year - 1970), some (rcos (r.year - 1970)), some (rsin (r.year - 1970))]
    ++ (if with_wind then [r.u2, r.v2] else [])
    ++ (if with_season then (List.range 11).map (fun i => some (monthDummy r.year i)) else [])

/-- The number of design-matrix columns. -/
def numCols (with_wind with_season : Bool) : ℕ :=
  4 + (if with_wind then 2 else 0) + (if with_season then 11 else 0)

/-- The positional feature names returned next to the fit. -/
def modelNames (with_wind with_season : Bool) : List String :=
  ["Constant", "Trend", "Nodal U", "Nodal V"]
    ++ (if with_wind then ["Wind U^2", "Wind V^2"] else [])
    ++ (if with_season then (List.range 11).map (fun i => "month_" ++ toString (i + 1)) else [])

/-- One elimination pass of a row against a pivot row:
`r.tail - (r.head / p.head) * p.tail`. -/
def pivotReduce (p r : List ℚ) : List ℚ :=
  List.zipWith (fun a b => a - r.headI / p.headI * b) r.tail p.tail

/-- Modelled from the spec: the rank of the design matrix, by Gaussian
elimination over the rows (`statsmodels`' numeric rank computation is
outside this repository's sources; spec §4.5 asks only whether the
matrix is rank-deficient).  One unit of fuel is spent per column: either
the leading column is all zero and is dropped, or the first row with a
nonzero leading entry becomes the pivot and eliminates the others. -/
def rankAux : ℕ → List (List ℚ) → ℕ
  | 0, _ => 0
  | fuel + 1, rows =>
      match rows.find? (fun r => decide (r.headI ≠ 0)) with
      | none => rankAux fuel (rows.map List.tail)
      | some p => 1 + rankAux fuel ((rows.erase p).map (fun r => pivotReduce p r))

/-- The rank of a matrix given as a list of rows of width `k`. -/
def gaussRank (k : ℕ) (rows : List (List ℚ)) : ℕ := rankAux k rows

/-- The data a successful fit is built from: the design matrix and
response actually used (after the missing-drop), and the feature names.
The numeric coefficient solve and the fit statistics are floating-point
`statsmodels` internals and are not modelled. -/
structure Fit where
  X : List (List ℚ)
  y : List ℚ
  names : List String
deriving DecidableEq, Repr

/-- `linear_model`: build the design matrix, drop every row with a
missing (NaN) response or regressor (`missing='drop'`), and fit by OLS.
Modelled from the spec: the fit fails with `SingularMatrixError` when
the design matrix restricted to the used rows is rank-deficient
(spec §4.5); otherwise it returns the used matrix, response and the
feature names. -/
def linear_model (rcos rsin : ℚ → ℚ) (df : List LMRow)
    (with_wind with_season : Bool) : Except Err Fit :=
  let rows := df.filter (fun r =>
    r.height.isSome && (featureRow rcos rsin with_wind with_season r).all Option.isSome)
  let X := rows.map (fun r => (featureRow rcos rsin with_wind with_season r).filterMap id)
  let y := rows.filterMap LMRow.height
  if gaussRank (numCols with_wind with_season) X < numCols with_wind with_season then
    .error .singularMatrixError
  else
    .ok ⟨X, y, modelNames with_wind with_season⟩

/-! ## Theorems -/

/-- Helper: the boundary list written out. -/
theorem startpoints_eq :
    startpoints = [0, 1/12, 1/6, 1/4, 1/3, 5/12, 1/2, 7/12, 2/3, 3/4, 5/6, 11/12] := by
  have h : List.range 12 = [0,1,2,3,4,5,6,7,8,9,10,11] := by decide
  unfold startpoints
  rw [h]
  norm_num

/-- Helper: counting `k < m` over `List.range n` yields `m` when `m ≤ n`. -/
theorem countP_range_lt (n m : ℕ) (h : m ≤ n) :
    (List.range n).countP (fun k => decide (k < m)) = m := by
  induction n with
  | zero =>
    have : m = 0 := by omega
    subst this
    simp
  | succ n ih =>
    rw [List.range_succ, List.countP_append]
    rcases Nat.lt_or_ge m (n + 1) with hm | hm
    · have hmn : m ≤ n := by omega
      rw [ih hmn]
      have : decide (n < m) = false := by simp; omega
      simp [this]
    · have hmeq : m = n + 1 := by omega
      subst hmeq
      have h1 : (List.range n).countP (fun k => decide (k < n + 1)) = n := by
        rw [(List.countP_eq_length (p := fun k => decide (k < n + 1))
            (l := List.range n)).mpr]
        · exact List.length_range n
        · intro a ha
          simp only [List.mem_range] at ha
          simp
          omega
      rw [h1]
      simp

/-- Claim C1 (amended): the decoder's sorted search is a left-bisection,
so an input whose fractional part lies in the half-open interval
`((m-1)/12, m/12]` is assigned month `m`; in particular an input whose
fractional part exactly equals a boundary is assigned to the preceding
month, and the month's start boundary is the largest boundary strictly
below the fractional part. -/
theorem c1_month_from_preceding_boundary (ys : List ℚ) (i : ℕ) (m : ℕ)
    (hi : i < ys.length) (hm1 : 1 ≤ m) (hm2 : m ≤ 12)
    (hlo : ((m : ℚ) - 1) / 12 < fracPart (ys.getD i 0))
    (hhi : fracPart (ys.getD i 0) ≤ (m : ℚ) / 12) :
    (year2dateMonths ys).getD i 0 = m := by
  set r := fracPart (ys.getD i 0) with hr
  have hcount : searchsortedLeft startpoints r = m := by
    have hcount' : searchsortedLeft startpoints r
        = (List.range 12).countP (fun k : ℕ => decide ((k : ℚ) / 12 < r)) := by
      unfold searchsortedLeft startpoints
      rw [List.countP_map]
      rfl
    rw [hcount']
    have hcongr : ∀ k ∈ List.range 12,
        (decide ((k : ℚ) / 12 < r) = true) ↔ (decide (k < m) = true) := by
      intro k hk
      simp only [List.mem_range] at hk
      simp only [decide_eq_true_eq]
      constructor
      · intro hklt
        by_contra hnk
        push_neg at hnk
        have hmk : (m : ℚ) ≤ (k : ℚ) := by exact_mod_cast hnk
        have : (m : ℚ) / 12 ≤ (k : ℚ) / 12 := by
          apply div_le_div_of_nonneg_right hmk
          norm_num
        exact absurd hklt (not_lt.mpr (le_trans hhi this))
      · intro hkm
        have hk1 : (k : ℚ) ≤ (m : ℚ) - 1 := by
          have h1 : (k : ℕ) + 1 ≤ m := hkm
          have h2 : ((k : ℕ) : ℚ) + 1 ≤ (m : ℚ) := by exact_mod_cast h1
          linarith
        have : (k : ℚ) / 12 ≤ ((m : ℚ) - 1) / 12 := by
          apply div_le_div_of_nonneg_right hk1
          norm_num
        exact lt_of_le_of_lt this hlo
    rw [List.countP_congr hcongr]
    exact countP_range_lt 12 m hm2
  have hlen : i < (year2dateMonthsRaw ys).length := by
    unfold year2dateMonthsRaw
    simpa using hi
  have hraw : (year2dateMonthsRaw ys).getD i 0 = m := by
    rw [List.getD_eq_getElem (year2dateMonthsRaw ys) 0 hlen]
    unfold year2dateMonthsRaw
    rw [List.getElem_map]
    rw [← List.getD_eq_getElem ys 0 hi]
    exact hcount
  have hnotall : ((year2dateMonthsRaw ys).all (fun x => x == 0)) = false := by
    apply List.all_eq_false.mpr
    refine ⟨m, ?_, by simp; omega⟩
    have heq := List.getD_eq_getElem (year2dateMonthsRaw ys) 0 hlen
    rw [hraw] at heq
    rw [heq]
    exact List.getElem_mem hlen
  unfold year2dateMonths
  simp only [hnotall, if_false]
  exact hraw

/-- Witness for C1's amended theorem at the concrete input 1955 + 1/24
(mid-January): the decoded month is January. -/
theorem c1_month_witness : (year2dateMonths [(1955 : ℚ) + 1/24]).getD 0 0 = 1 :=
  c1_month_from_preceding_boundary [(1955 : ℚ) + 1/24] 0 1
    (by norm_num) (by norm_num) (by norm_num)
    (by norm_num [fracPart, List.getD]) (by norm_num [fracPart, List.getD])

/-- Counterexample to claim C1 as stated: at the input 1955 + 1/12,
whose fractional part exactly equals the month-2 boundary 1/12, the
decoder produces month 1 (the preceding month), while the claim's rule
(largest boundary ≤ the fractional part) predicts month 2. -/
theorem c1_claim_counterexample :
    year2dateMonths [(1955 : ℚ) + 1/12] = [1]
      ∧ specMonths [(1955 : ℚ) + 1/12] = [2] := by
  have hfrac : fracPart ((1955 : ℚ) + 1/12) = 1/12 := by norm_num [fracPart]
  have hraw : year2dateMonthsRaw [(1955 : ℚ) + 1/12] = [1] := by
    unfold year2dateMonthsRaw
    simp only [List.map_cons, List.map_nil, hfrac]
    rw [searchsortedLeft, startpoints_eq]
    norm_num [List.countP_cons, List.countP_nil]
  constructor
  · unfold year2dateMonths
    rw [hraw]
    decide
  · unfold specMonths specMonth
    simp only [List.map_cons, List.map_nil, hfrac]
    rw [startpoints_eq]
    norm_num [List.countP_cons, List.countP_nil]

/-- Claim C4 (amended): on an input in which every computed month index
is 0, the `get-data.ipynb` decoder forces month 1 for every row, but
the `series2json` variant has no such special case and leaves every
month 0 (an invalid calendar month). -/
theorem c4_annual_special_case (ys : List ℚ)
    (h : ∀ x ∈ year2dateMonthsRaw ys, x = 0) :
    year2dateMonths ys = List.replicate ys.length 1
      ∧ year2dateMonthsV2 ys = List.replicate ys.length 0 := by
  have hall : (year2dateMonthsRaw ys).all (fun x => x == 0) = true := by
    apply List.all_eq_true.mpr
    intro x hx
    simpa using h x hx
  have hlen : (year2dateMonthsRaw ys).length = ys.length := by
    unfold year2dateMonthsRaw; simp
  constructor
  · unfold year2dateMonths
    simp only [hall, if_true]
    apply List.eq_replicate_iff.mpr
    exact ⟨by simpa using hlen, by intro b hb; simp at hb; tauto⟩
  · unfold year2dateMonthsV2
    apply List.eq_replicate_iff.mpr
    exact ⟨hlen, h⟩

/-- Helper: the raw month index of a pure annual fractional year is 0. -/
theorem monthsRaw_annual (q : ℚ) (hq : fracPart q = 0) :
    searchsortedLeft startpoints (fracPart q) = 0 := by
  rw [hq, searchsortedLeft, startpoints_eq]
  norm_num [List.countP_cons, List.countP_nil]

/-- Witness for C4's amended theorem on the pure annual input [1955, 1956]. -/
theorem c4_annual_witness :
    year2dateMonths [(1955 : ℚ), 1956] = List.replicate 2 1
      ∧ year2dateMonthsV2 [(1955 : ℚ), 1956] = List.replicate 2 0 :=
  c4_annual_special_case [(1955 : ℚ), 1956] (by
    intro x hx
    unfold year2dateMonthsRaw at hx
    simp only [List.map_cons, List.map_nil, List.mem_cons, List.mem_singleton] at hx
    rcases hx with hx | hx | hx
    · rw [hx]; exact monthsRaw_annual 1955 (by norm_num [fracPart])
    · rw [hx]; exact monthsRaw_annual 1956 (by norm_num [fracPart])
    · simp at hx)

/-- Counterexample to claim C4 as stated: the claim asserts the forced
month 1 in each source variant, but on the pure annual input [1955] the
`series2json` variant produces month 0 where the main variant produces
month 1. -/
theorem c4_variant_counterexample :
    year2dateMonthsV2 [(1955 : ℚ)] = [0]
      ∧ year2dateMonths [(1955 : ℚ)] = [1] := by
  have hraw : year2dateMonthsRaw [(1955 : ℚ)] = [0] := by
    unfold year2dateMonthsRaw
    simp only [List.map_cons, List.map_nil]
    rw [monthsRaw_annual 1955 (by norm_num [fracPart])]
  constructor
  · unfold year2dateMonthsV2
    exact hraw
  · unfold year2dateMonths
    rw [hraw]
    decide

/-- Claim C10: with an explicit name list, `get_stations` selects by
case-insensitive name match against the full station table and ignores
the coastline code entirely; without names, the coastline-code filter
determines the result. -/
theorem c10_names_override (stations : List Station) (cc : ℤ) (ns : List String) :
    (∀ s, s ∈ get_stations stations cc (some ns)
        ↔ s ∈ stations ∧ (ns.map (fun n => n.toLower)).contains s.name.toLower = true)
    ∧ (∀ cc2, get_stations stations cc (some ns) = get_stations stations cc2 (some ns))
    ∧ (∀ s, s ∈ get_stations stations cc none
        ↔ s ∈ stations ∧ s.coastline_code = cc) := by
  refine ⟨?_, ?_, ?_⟩
  · intro s
    simp [get_stations, List.mem_filter]
  · intro cc2
    rfl
  · intro s
    simp [get_stations, List.mem_filter]

/-- Claim C2: in the merged frame, a row whose wind sample is missing
gets each of `u2`, `v2`, `u2main`, `u2perp` replaced by the single
global nanmean of that same column of the merged frame (computed after
the join, before imputation), and that nanmean is exactly the sum of
the column's non-missing values divided by their count. -/
theorem c2_global_mean_imputation (df : List StationRow) (wind : List WindRow)
    (i : ℕ) (hi : i < (leftJoin df wind).length)
    (hu : ((leftJoin df wind).getD i mrow0).u = none)
    (hv : ((leftJoin df wind).getD i mrow0).v = none) :
    ((impute (leftJoin df wind)).getD i mrow0).u2
        = nanmean ((leftJoin df wind).map MRow.u2)
    ∧ ((impute (leftJoin df wind)).getD i mrow0).v2
        = nanmean ((leftJoin df wind).map MRow.v2)
    ∧ ((impute (leftJoin df wind)).getD i mrow0).u2main
        = nanmean ((leftJoin df wind).map MRow.u2main)
    ∧ ((impute (leftJoin df wind)).getD i mrow0).u2perp
        = nanmean ((leftJoin df wind).map MRow.u2perp)
    ∧ (∀ col : List (Option ℚ), col.filterMap id ≠ [] →
        nanmean col = some ((col.filterMap id).sum / ((col.filterMap id).length : ℚ))) := by
  have him : i < (impute (leftJoin df wind)).length := by
    unfold impute
    simpa using hi
  rw [List.getD_eq_getElem _ _ hi] at hu hv
  rw [List.getD_eq_getElem _ _ him]
  unfold impute
  rw [List.getElem_map]
  refine ⟨?_, ?_, ?_, ?_, ?_⟩
  · simp [hu]
  · simp [hv]
  · simp [hu]
  · simp [hu]
  · intro col hne
    unfold nanmean
    rw [if_neg]
    simp [List.isEmpty_iff, hne]

/-- Witness for C2 on a two-row station frame whose second timestamp has
no wind sample. -/
theorem c2_imputation_witness :
    ((impute (leftJoin [⟨0, 1930, some 100, 1⟩, ⟨1, 1930 + 1/12, some 101, 1⟩]
        [⟨0, 3, 4, 5, 0, 9, 16, none, none⟩])).getD 1 mrow0).u2
      = nanmean ((leftJoin [⟨0, 1930, some 100, 1⟩, ⟨1, 1930 + 1/12, some 101, 1⟩]
        [⟨0, 3, 4, 5, 0, 9, 16, none, none⟩]).map MRow.u2) :=
  (c2_global_mean_imputation
    [⟨0, 1930, some 100, 1⟩, ⟨1, 1930 + 1/12, some 101, 1⟩]
    [⟨0, 3, 4, 5, 0, 9, 16, none, none⟩] 1
    (by decide) (by decide) (by decide)).1

/-- Helper: with pairwise-distinct wind timestamps, at most one wind row
matches any timestamp. -/
theorem wind_filter_length_le_one (wind : List WindRow)
    (h : (wind.map WindRow.t).Nodup) (x : ℤ) :
    (wind.filter (fun w => decide (w.t = x))).length ≤ 1 := by
  induction wind with
  | nil => simp
  | cons w ws ih =>
    simp only [List.map_cons, List.nodup_cons] at h
    rw [List.filter_cons]
    by_cases hx : w.t = x
    · have hnil : ws.filter (fun w' => decide (w'.t = x)) = [] := by
        apply List.filter_eq_nil_iff.mpr
        intro a ha
        simp only [decide_eq_true_eq]
        intro hax
        exact h.1 (by
          rw [← hx] at hax
          exact List.mem_map.mpr ⟨a, ha, hax⟩)
      simp [hx, hnil]
    · simp only [hx, decide_False, if_false]
      exact ih h.2

/-- Claim C3: when the wind frame has pairwise-distinct timestamps (it
is a time-indexed series), the left join preserves the station frame
exactly: the merged rows' station parts are the station rows, in order,
so no station timestamp is dropped and none is added even where no wind
sample exists. -/
theorem c3_left_join_preserves_stations (df : List StationRow)
    (wind : List WindRow) (h : (wind.map WindRow.t).Nodup) :
    (leftJoin df wind).map MRow.s = df := by
  induction df with
  | nil => rfl
  | cons s ds ih =>
    have hstep : leftJoin (s :: ds) wind = joinOne s wind ++ leftJoin ds wind := by
      unfold leftJoin
      simp [List.flatMap_cons]
    rw [hstep, List.map_append, ih]
    have hone : (joinOne s wind).map MRow.s = [s] := by
      unfold joinOne
      by_cases hempty : (wind.filter (fun w => decide (w.t = s.t))).isEmpty
      · simp [hempty]
      · rw [if_neg hempty]
        have hle := wind_filter_length_le_one wind h s.t
        match hms : wind.filter (fun w => decide (w.t = s.t)) with
        | [] => rw [hms] at hempty; simp at hempty
        | [a] => rw [hms]; simp
        | a :: b :: rest => rw [hms] at hle; simp at hle
    rw [hone]
    rfl

/-- Witness for C3 on a two-row station frame and a one-row wind frame. -/
theorem c3_join_witness :
    (leftJoin [⟨0, 1930, some 100, 1⟩, ⟨1, 1930 + 1/12, none, 1⟩]
        [⟨0, 3, 4, 5, 0, 9, 16, none, none⟩]).map MRow.s
      = [⟨0, 1930, some 100, 1⟩, ⟨1, 1930 + 1/12, none, 1⟩] :=
  c3_left_join_preserves_stations
    [⟨0, 1930, some 100, 1⟩, ⟨1, 1930 + 1/12, none, 1⟩]
    [⟨0, 3, 4, 5, 0, 9, 16, none, none⟩] (by decide)

/-- Counterexample to claim C9 as stated: processing a single station
mutates the shared wind frame — here `get_data` overwrites the
`u2main`/`u2perp` columns of the one-row wind state, so the state after
the call differs from the state before it. -/
theorem c9_mutation_counterexample :
    (get_data id id id [] ("x") (fun _ => 0)
        (some [⟨0, 0, 0, 1, 0, 0, 0, none, none⟩])).2
      ≠ some [⟨0, 0, 0, 1, 0, 0, 0, none, none⟩] := by
  intro hcontra
  simp [get_data, windUpdate] at hcontra

/-- Helper: erasing `u2main`/`u2perp` after the per-station update gives
the same result as erasing them before it. -/
theorem stripWind_windUpdate (rc rs dd : ℚ → ℚ) (a : ℚ) (r : WindRow) :
    stripWind (windUpdate rc rs dd a r) = stripWind r := by
  cases r
  simp [stripWind, windUpdate]

/-- Helper: the per-station update only reads the strip-invariant
columns, so two wind rows with equal stripped parts update equally. -/
theorem windUpdate_congr (rc rs dd : ℚ → ℚ) (a : ℚ) (r1 r2 : WindRow)
    (h : stripWind r1 = stripWind r2) :
    windUpdate rc rs dd a r1 = windUpdate rc rs dd a r2 := by
  cases r1
  cases r2
  simp only [stripWind, WindRow.mk.injEq] at h
  obtain ⟨h1, h2, h3, h4, h5, h6, h7, -, -⟩ := h
  subst h1; subst h2; subst h3; subst h4; subst h5; subst h6; subst h7
  simp [windUpdate]

/-- Helper: two wind states with equal stripped parts produce the same
updated wind frame. -/
theorem map_windUpdate_congr (rc rs dd : ℚ → ℚ) (a : ℚ) :
    ∀ (w1 w2 : List WindRow), w1.map stripWind = w2.map stripWind →
      w1.map (windUpdate rc rs dd a) = w2.map (windUpdate rc rs dd a) := by
  intro w1
  induction w1 with
  | nil =>
    intro w2 h
    cases w2 with
    | nil => rfl
    | cons b bs => simp at h
  | cons a1 as ih =>
    intro w2 h
    cases w2 with
    | nil => simp at h
    | cons b bs =>
      simp only [List.map_cons, List.cons.injEq] at h ⊢
      exact ⟨windUpdate_congr rc rs dd a a1 b h.1, ih bs h.2⟩

/-- Helper: the wind state after `get_data`, explicitly. -/
theorem get_data_state (rc rs dd : ℚ → ℚ) (df : List StationRow)
    (name : String) (alphas : String → ℚ) (w : List WindRow) :
    (get_data rc rs dd df name alphas (some w)).2
      = some (w.map (windUpdate rc rs dd (alphas name.toLower))) := rfl

/-- Helper: a station's merged frame depends on the incoming wind state
only through its stripped part. -/
theorem get_data_frame_congr (rc rs dd : ℚ → ℚ) (df : List StationRow)
    (name : String) (alphas : String → ℚ) (w1 w2 : List WindRow)
    (h : w1.map stripWind = w2.map stripWind) :
    (get_data rc rs dd df name alphas (some w1)).1
      = (get_data rc rs dd df name alphas (some w2)).1 := by
  simp only [get_data]
  rw [map_windUpdate_congr rc rs dd (alphas name.toLower) w1 w2 h]

/-- Claim C9 (amended): processing a station does mutate the shared wind
frame, but only by overwriting its `u2main`/`u2perp` columns, which no
later station reads before overwriting them again; consequently every
station's merged frame in the sequential pipeline equals the frame it
would compute from the pristine initial wind state, and the stripped
wind state (everything except `u2main`/`u2perp`) is preserved by every
call. -/
theorem c9_order_independence (rc rs dd : ℚ → ℚ) (alphas : String → ℚ)
    (ss : List (String × List StationRow)) (w : List WindRow) :
    ((processStations rc rs dd alphas ss (some w)).1
        = ss.map (fun p => (get_data rc rs dd p.2 p.1 alphas (some w)).1))
    ∧ (∀ (df : List StationRow) (name : String),
        ((get_data rc rs dd df name alphas (some w)).2).map (fun l => l.map stripWind)
          = some (w.map stripWind)) := by
  constructor
  · have main : ∀ (ss : List (String × List StationRow)) (w1 w2 : List WindRow),
        w1.map stripWind = w2.map stripWind →
        (processStations rc rs dd alphas ss (some w1)).1
          = ss.map (fun p => (get_data rc rs dd p.2 p.1 alphas (some w2)).1) := by
      intro ss
      induction ss with
      | nil => intro w1 w2 h; rfl
      | cons p ps ih =>
        intro w1 w2 h
        simp only [processStations, List.map_cons, get_data_state]
        have hcomp : stripWind ∘ windUpdate rc rs dd (alphas p.1.toLower) = stripWind := by
          funext r
          exact stripWind_windUpdate rc rs dd (alphas p.1.toLower) r
        have hupd : (w1.map (windUpdate rc rs dd (alphas p.1.toLower))).map stripWind
            = w2.map stripWind := by
          rw [List.map_map, hcomp]
          exact h
        rw [get_data_frame_congr rc rs dd p.2 p.1 alphas w1 w2 h,
          ih (w1.map (windUpdate rc rs dd (alphas p.1.toLower))) w2 hupd]
    exact main ss w w rfl
  · intro df name
    rw [get_data_state]
    show some ((w.map (windUpdate rc rs dd (alphas name.toLower))).map stripWind)
      = some (w.map stripWind)
    congr 1
    rw [List.map_map]
    have hcomp2 : stripWind ∘ windUpdate rc rs dd (alphas name.toLower) = stripWind := by
      funext r
      exact stripWind_windUpdate rc rs dd (alphas name.toLower) r
    rw [hcomp2]

/-- Helper: `np.argmin` returns an index inside the (nonempty) list. -/
theorem argminIdx_lt : ∀ (xs : List ℚ), xs ≠ [] → argminIdx xs < xs.length := by
  intro xs
  induction xs with
  | nil => intro h; exact absurd rfl h
  | cons x t ih =>
    intro _
    cases t with
    | nil => simp [argminIdx]
    | cons y ys =>
      simp only [argminIdx]
      by_cases hc : x ≤ (y :: ys).getD (argminIdx (y :: ys)) 0
      · rw [if_pos hc]
        simp
      · rw [if_neg hc]
        have h2 := ih (by simp)
        simpa using Nat.succ_lt_succ h2

/-- Helper: `np.argmin` attains the minimum value. -/
theorem argminIdx_min : ∀ (xs : List ℚ) (k : ℕ), k < xs.length →
    xs.getD (argminIdx xs) 0 ≤ xs.getD k 0 := by
  intro xs
  induction xs with
  | nil => intro k h; simp at h
  | cons x t ih =>
    intro k hk
    cases t with
    | nil =>
      have hk0 : k = 0 := by simpa using hk
      subst hk0
      simp [argminIdx]
    | cons y ys =>
      simp only [argminIdx]
      by_cases hc : x ≤ (y :: ys).getD (argminIdx (y :: ys)) 0
      · rw [if_pos hc]
        cases k with
        | zero => simp
        | succ k' =>
          rw [List.getD_cons_zero, List.getD_cons_succ]
          have hk' : k' < (y :: ys).length := by simpa using hk
          exact le_trans hc (ih k' hk')
      · rw [if_neg hc]
        push_neg at hc
        cases k with
        | zero =>
          rw [List.getD_cons_succ, List.getD_cons_zero]
          exact le_of_lt hc
        | succ k' =>
          rw [List.getD_cons_succ, List.getD_cons_succ]
          exact ih k' (by simpa using hk)

/-- Helper: an element of a mapped range, by index. -/
theorem range_map_getD (N k : ℕ) (f : ℕ → ℚ) (h : k < N) :
    ((List.range N).map f).getD k 0 = f k := by
  have hlen : k < ((List.range N).map f).length := by simpa using h
  rw [List.getD_eq_getElem _ _ hlen, List.getElem_map]
  congr 1
  simp

/-- Helper: `find_closest` minimizes the squared distance over the grid
cross-product. -/
theorem find_closest_min (lat lon : List ℚ) (lat_i lon_i : ℚ) (i j : ℕ)
    (hi : i < lat.length) (hj : j < lon.length) :
    sqDist lat lon lat_i lon_i (find_closest lat lon lat_i lon_i)
      ≤ sqDist lat lon lat_i lon_i (i, j) := by
  have hnlon : 0 < lon.length := lt_of_le_of_lt (Nat.zero_le j) hj
  have hN : i * lon.length + j < lat.length * lon.length := by
    calc i * lon.length + j < i * lon.length + lon.length := by omega
    _ = (i + 1) * lon.length := by ring
    _ ≤ lat.length * lon.length := mul_le_mul_right' (by omega) lon.length
  set D := (List.range (lat.length * lon.length)).map
    (fun idx => sqDist lat lon lat_i lon_i (idx / lon.length, idx % lon.length)) with hD
  have hDlen : D.length = lat.length * lon.length := by simp [hD]
  have hDne : D ≠ [] := by
    intro hnil
    rw [hnil] at hDlen
    simp only [List.length_nil] at hDlen
    have hpos : 0 < lat.length * lon.length := Nat.mul_pos (by omega) hnlon
    omega
  have hidx : argminIdx D < lat.length * lon.length := by
    have := argminIdx_lt D hDne
    omega
  have h1 : D.getD (argminIdx D) 0
      = sqDist lat lon lat_i lon_i (argminIdx D / lon.length, argminIdx D % lon.length) :=
    range_map_getD _ _ _ hidx
  have h2 : D.getD (i * lon.length + j) 0
      = sqDist lat lon lat_i lon_i
          ((i * lon.length + j) / lon.length, (i * lon.length + j) % lon.length) :=
    range_map_getD _ _ _ hN
  have hdiv : (i * lon.length + j) / lon.length = i := by
    have e : i * lon.length + j = j + lon.length * i := by ring
    rw [e, Nat.add_mul_div_left j i hnlon, Nat.div_eq_of_lt hj]
    omega
  have hmod : (i * lon.length + j) % lon.length = j := by
    have e : i * lon.length + j = j + lon.length * i := by ring
    rw [e, Nat.add_mul_mod_self_left]
    exact Nat.mod_eq_of_lt hj
  have hfc : find_closest lat lon lat_i lon_i
      = (argminIdx D / lon.length, argminIdx D % lon.length) := by
    simp only [find_closest, hD]
  rw [hfc, ← h1]
  have := argminIdx_min D (i * lon.length + j) (by omega)
  rw [h2, hdiv, hmod] at this
  exact this

/-- Claim C5: the wind extractor fails with the consistency error
exactly when the two source grids' latitude, longitude and time axes
disagree; when they agree it returns the `u` and `v` series at the
`find_closest` grid cell, which minimizes the squared lat/lon distance
over the whole grid cross-product and lies inside the grid. -/
theorem c5_axis_consistency (ds_u ds_v : Grid) (lat_i lon_i : ℚ) :
    (¬ axesMatch ds_u ds_v →
        make_wind_df ds_u ds_v lat_i lon_i = .error .consistencyError)
    ∧ (axesMatch ds_u ds_v →
        make_wind_df ds_u ds_v lat_i lon_i
          = .ok (ds_u.time,
              extractAt ds_u (find_closest ds_u.lat ds_u.lon lat_i lon_i).1
                (find_closest ds_u.lat ds_u.lon lat_i lon_i).2,
              extractAt ds_v (find_closest ds_u.lat ds_u.lon lat_i lon_i).1
                (find_closest ds_u.lat ds_u.lon lat_i lon_i).2))
    ∧ (∀ i j, i < ds_u.lat.length → j < ds_u.lon.length →
        sqDist ds_u.lat ds_u.lon lat_i lon_i (find_closest ds_u.lat ds_u.lon lat_i lon_i)
          ≤ sqDist ds_u.lat ds_u.lon lat_i lon_i (i, j))
    ∧ (ds_u.lat ≠ [] → ds_u.lon ≠ [] →
        (find_closest ds_u.lat ds_u.lon lat_i lon_i).1 < ds_u.lat.length
        ∧ (find_closest ds_u.lat ds_u.lon lat_i lon_i).2 < ds_u.lon.length) := by
  refine ⟨?_, ?_, ?_, ?_⟩
  · intro h
    unfold make_wind_df
    rw [if_neg h]
  · intro h
    unfold make_wind_df
    rw [if_pos h]
  · intro i j hi hj
    exact find_closest_min ds_u.lat ds_u.lon lat_i lon_i i j hi hj
  · intro hlat hlon
    have hnlon : 0 < ds_u.lon.length := List.length_pos.mpr hlon
    have hnlat : 0 < ds_u.lat.length := List.length_pos.mpr hlat
    set D := (List.range (ds_u.lat.length * ds_u.lon.length)).map
      (fun idx => sqDist ds_u.lat ds_u.lon lat_i lon_i
        (idx / ds_u.lon.length, idx % ds_u.lon.length)) with hD
    have hDlen : D.length = ds_u.lat.length * ds_u.lon.length := by simp [hD]
    have hDne : D ≠ [] := by
      intro hnil
      rw [hnil] at hDlen
      simp only [List.length_nil] at hDlen
      have hpos : 0 < ds_u.lat.length * ds_u.lon.length := Nat.mul_pos hnlat hnlon
      omega
    have hidx : argminIdx D < ds_u.lat.length * ds_u.lon.length := by
      have := argminIdx_lt D hDne
      omega
    have hfc : find_closest ds_u.lat ds_u.lon lat_i lon_i
        = (argminIdx D / ds_u.lon.length, argminIdx D % ds_u.lon.length) := by
      simp only [find_closest, hD]
    rw [hfc]
    constructor
    · exact Nat.div_lt_of_lt_mul (by
        rw [Nat.mul_comm] at hidx
        exact hidx)
    · exact Nat.mod_lt _ hnlon

/-- Witness for C5 at one-cell grids: mismatched latitude axes produce
the consistency error, matching axes produce the extraction at the
nearest cell, which is in range. -/
theorem c5_consistency_witness :
    make_wind_df ⟨[53], [3], [0], [[[7]]]⟩ ⟨[54], [3], [0], [[[9]]]⟩ 53 3
        = .error .consistencyError
    ∧ make_wind_df ⟨[53], [3], [0], [[[7]]]⟩ ⟨[53], [3], [0], [[[8]]]⟩ 53 3
        = .ok ((⟨[53], [3], [0], [[[7]]]⟩ : Grid).time,
            extractAt ⟨[53], [3], [0], [[[7]]]⟩
              (find_closest [53] [3] 53 3).1 (find_closest [53] [3] 53 3).2,
            extractAt ⟨[53], [3], [0], [[[8]]]⟩
              (find_closest [53] [3] 53 3).1 (find_closest [53] [3] 53 3).2)
    ∧ ((find_closest [53] [3] 53 3).1 < 1 ∧ (find_closest [53] [3] 53 3).2 < 1) :=
  ⟨(c5_axis_consistency ⟨[53], [3], [0], [[[7]]]⟩ ⟨[54], [3], [0], [[[9]]]⟩ 53 3).1
      (by norm_num [axesMatch]),
   (c5_axis_consistency ⟨[53], [3], [0], [[[7]]]⟩ ⟨[53], [3], [0], [[[8]]]⟩ 53 3).2.1
      ⟨rfl, rfl, rfl⟩,
   (c5_axis_consistency ⟨[53], [3], [0], [[[7]]]⟩ ⟨[53], [3], [0], [[[8]]]⟩ 53 3).2.2.2
      (by simp) (by simp)⟩

/-- Claim C6: when the metadata text contains no sentence matching
`Add <value> to data <from> onwards`, the parser fails with the format
error and returns no correction function. -/
theorem c6_missing_sentence_error (text : String) (h : findallAdd text = []) :
    get_rlr2nap text = .error .formatError := by
  unfold get_rlr2nap
  rw [h]
  rfl

/-- Witness for C6 on a text with no correction sentence. -/
theorem c6_missing_sentence_witness :
    get_rlr2nap ("Approximate datum history unknown") = .error .formatError :=
  c6_missing_sentence_error ("Approximate datum history unknown") (by decide)

/-- Claim C7: with at least one matching sentence, the parser builds the
correction from the LAST match in document order: the parsed value (in
meters) of that match's last token, times 1000, subtracted from the
height. -/
theorem c7_last_match_correction (text : String) (g : String) (v : ℚ)
    (h1 : (findallAdd text).getLast? = some g)
    (h2 : parseCorrection g = some v) :
    get_rlr2nap text = .ok (fun x => x - v * 1000) := by
  unfold get_rlr2nap
  rw [h1]
  show (match parseCorrection g with
    | none => Except.error Err.valueError
    | some v => Except.ok fun x => x - v * 1000) = Except.ok fun x => x - v * 1000
  rw [h2]

/-- Witness for C7 on a text with two correction sentences: the second
(last) sentence's value 2.5 m gives the correction 2500 mm. -/
theorem c7_last_match_witness :
    get_rlr2nap ("Add 1.5m to data 1900 onwards\x0aAdd 2.5m to data 1950 onwards")
      = .ok (fun x => x - (5 / 2) * 1000) := by
  have h1 : (findallAdd ("Add 1.5m to data 1900 onwards\x0aAdd 2.5m to data 1950 onwards")).getLast?
      = some ("2.5m") := by decide
  have hparts : parseParts (stripM ("2.5m")) = some (false, 2, 5, 1) := by decide
  have h2 : parseCorrection ("2.5m") = some (5 / 2) := by
    have htok : lastToken ("2.5m") = some ("2.5m") := by decide
    unfold parseCorrection
    rw [htok]
    show parseFloat (stripM ("2.5m")) = some (5 / 2)
    unfold parseFloat
    rw [hparts]
    show some (ratOfParts (false, 2, 5, 1)) = some (5 / 2)
    congr 1
    unfold ratOfParts
    norm_num
  exact c7_last_match_correction
    ("Add 1.5m to data 1900 onwards\x0aAdd 2.5m to data 1950 onwards")
    ("2.5m") (5 / 2) h1 h2

/-- Helper: Gaussian elimination consumes at most one row per pivot, so
the rank is at most the number of rows. -/
theorem rankAux_le_length : ∀ (fuel : ℕ) (rows : List (List ℚ)),
    rankAux fuel rows ≤ rows.length := by
  intro fuel
  induction fuel with
  | zero => intro rows; simp [rankAux]
  | succ n ih =>
    intro rows
    cases hf : rows.find? (fun r => decide (r.headI ≠ 0)) with
    | none =>
      have hstep : rankAux (n + 1) rows = rankAux n (rows.map List.tail) := by
        simp only [rankAux, hf]
      rw [hstep]
      calc rankAux n (rows.map List.tail) ≤ (rows.map List.tail).length := ih _
      _ = rows.length := by simp
    | some p =>
      have hp : p ∈ rows := List.mem_of_find?_eq_some hf
      have hlen : (rows.erase p).length = rows.length - 1 := List.length_erase_of_mem hp
      have hpos : 0 < rows.length := List.length_pos.mpr (List.ne_nil_of_mem hp)
      have hstep : rankAux (n + 1) rows
          = 1 + rankAux n ((rows.erase p).map (fun r => pivotReduce p r)) := by
        simp only [rankAux, hf]
      rw [hstep]
      have h1 : rankAux n ((rows.erase p).map (fun r => pivotReduce p r))
          ≤ ((rows.erase p).map (fun r => pivotReduce p r)).length := ih _
      have h2 : ((rows.erase p).map (fun r => pivotReduce p r)).length
          = (rows.erase p).length := by simp
      omega

/-- Helper: under the wind-presence assumption every design-matrix
entry is present. -/
theorem featureRow_all_isSome (rcos rsin : ℚ → ℚ) (ww ws : Bool) (r : LMRow)
    (h : ww = true → r.u2.isSome ∧ r.v2.isSome) :
    (featureRow rcos rsin ww ws r).all Option.isSome = true := by
  apply List.all_eq_true.mpr
  intro x hx
  simp only [featureRow, List.mem_append] at hx
  rcases hx with (hx | hx) | hx
  · simp only [List.mem_cons, List.not_mem_nil, or_false] at hx
    rcases hx with rfl | rfl | rfl | rfl <;> rfl
  · cases ww with
    | false => simp at hx
    | true =>
      simp only [if_true] at hx
      simp only [List.mem_cons, List.not_mem_nil, or_false] at hx
      rcases hx with rfl | rfl
      · exact (h rfl).1
      · exact (h rfl).2
  · cases ws with
    | false => simp at hx
    | true =>
      simp only [if_true, List.mem_map] at hx
      obtain ⟨i, -, rfl⟩ := hx
      rfl

/-- Claim C8 (spec-modelled OLS failure): with the wind regressors
present on every row (so `missing='drop'` removes exactly the rows with
missing height), the fit uses exactly the `N` rows with non-missing
response, and whenever `N` is smaller than the number of feature
columns the design matrix is rank-deficient and the fit fails with the
singular-matrix error. -/
theorem c8_drop_and_singular (rcos rsin : ℚ → ℚ) (df : List LMRow)
    (with_wind with_season : Bool)
    (hw : ∀ r ∈ df, with_wind = true → r.u2.isSome ∧ r.v2.isSome) :
    ((df.filter (fun r => r.height.isSome)).length < numCols with_wind with_season →
        linear_model rcos rsin df with_wind with_season = .error .singularMatrixError)
    ∧ (∀ F, linear_model rcos rsin df with_wind with_season = .ok F →
        F.X.length = (df.filter (fun r => r.height.isSome)).length
        ∧ F.y = (df.filter (fun r => r.height.isSome)).filterMap LMRow.height
        ∧ F.names = modelNames with_wind with_season) := by
  have hfilter : df.filter (fun r =>
      r.height.isSome && (featureRow rcos rsin with_wind with_season r).all Option.isSome)
      = df.filter (fun r => r.height.isSome) := by
    apply List.filter_congr
    intro r hr
    rw [featureRow_all_isSome rcos rsin with_wind with_season r (hw r hr)]
    simp
  constructor
  · intro hN
    simp only [linear_model, hfilter]
    split
    · rfl
    · rename_i hcond
      exfalso
      have h1 := rankAux_le_length (numCols with_wind with_season)
        ((df.filter (fun r => r.height.isSome)).map
          (fun r => (featureRow rcos rsin with_wind with_season r).filterMap id))
      have h2 : ((df.filter (fun r => r.height.isSome)).map
          (fun r => (featureRow rcos rsin with_wind with_season r).filterMap id)).length
          = (df.filter (fun r => r.height.isSome)).length := by simp
      unfold gaussRank at hcond
      omega
  · intro F hF
    simp only [linear_model, hfilter] at hF
    split at hF
    · exact Except.noConfusion hF
    · simp only [Except.ok.injEq] at hF
      subst hF
      refine ⟨by simp, rfl, rfl⟩

/-- Witness for C8: one valid row and one missing-height row with four
feature columns (no wind, no season) give a rank-deficient design
matrix and the singular-matrix error. -/
theorem c8_singular_witness :
    linear_model id id [⟨1971, some 5, none, none⟩, ⟨1972, none, none, none⟩] false false
      = .error .singularMatrixError :=
  (c8_drop_and_singular id id [⟨1971, some 5, none, none⟩, ⟨1972, none, none, none⟩]
    false false (fun r _ h => Bool.noConfusion h)).1 (by decide)
